import Mathlib

/-!
Shallow embedding of the FlashPress News server core (storage + auth + AI
route logic) and proofs about it.

Sources embedded:
* `src/server/services/aiServices.ts` — `AIService.detectFakeNews`,
  `AuthService` (register / login / verifyToken), `MemStorage`.
* `src/server/storageNew.ts` — `DatabaseStorage` (relational variant,
  modelled with list-valued tables and SQL `WHERE`/`ORDER BY`/`LIMIT`/`OFFSET`
  semantics).
* `src/server/routes.ts` — the `POST /api/articles/:id/like` toggle handler.

Modelling conventions:
* JavaScript `Map` objects are insertion-ordered association lists
  (`JsMap`); `Map.set` replaces an existing key in place and appends fresh
  keys, `Map.values()` yields values in insertion order, exactly as in JS.
* `randomUUID()` and `new Date()` are nondeterministic inputs; they are
  passed explicitly as `freshId` / `now` arguments, and freshness of an id
  is a hypothesis where a proof needs it.
* Timestamps (`createdAt`, `publishedAt`) are integers (epoch millis);
  `new Date(x).getTime()` comparisons become integer comparisons.
* Thrown JS exceptions become `Except.error` carrying the message; state
  is threaded explicitly, so an operation that throws before mutating
  returns the input state unchanged.
* `bcrypt` is modelled by its contract: `bcryptCompare p h` succeeds
  exactly when `h` was produced by hashing `p`.
* `jsonwebtoken` is modelled by an inductive token type recording the
  payload, the signing secret and an expiry flag; `jwt.verify` succeeds
  exactly on a token signed with the matching secret that is not expired,
  and raises (modelled as `Except.error`) otherwise.
* The external LLM call inside `detectFakeNews` is an oracle parameter:
  `none` models the call throwing, `some r` models a parsed JSON reply
  whose fields may individually be absent.
-/

namespace News

/-- Decidable equality of `Except` results, used to evaluate concrete
register/login outcomes. -/
instance instDecEqExcept {e a : Type} [DecidableEq e] [DecidableEq a] :
    DecidableEq (Except e a) := fun x y =>
  match x, y with
  | .ok v, .ok w =>
      if h : v = w then .isTrue (by rw [h]) else .isFalse (fun hc => h (Except.ok.inj hc))
  | .error v, .error w =>
      if h : v = w then .isTrue (by rw [h]) else .isFalse (fun hc => h (Except.error.inj hc))
  | .ok _, .error _ => .isFalse (fun hc => Except.noConfusion hc)
  | .error _, .ok _ => .isFalse (fun hc => Except.noConfusion hc)

/-! ### JavaScript string primitives -/

/-- JS truthiness of a string: every string except `""` is truthy. -/
def jsTruthyStr (s : String) : Bool := !(s == "")

/-- Does `pat` occur at the head of `l`? Helper for `hasSubSeq`. -/
def seqStartsWith : List Char → List Char → Bool
  | _, [] => true
  | [], _ :: _ => false
  | c :: cs, p :: ps => c == p && seqStartsWith cs ps

/-- Does `pat` occur contiguously inside `l`? Model of JS
`String.prototype.includes` on the character sequence. -/
def hasSubSeq : List Char → List Char → Bool
  | [], pat => pat.isEmpty
  | c :: tl, pat => seqStartsWith (c :: tl) pat || hasSubSeq tl pat

/-- Model of JS `s.includes(pat)`. -/
def jsIncludes (s pat : String) : Bool := hasSubSeq s.data pat.data

/-- Model of JS `s.toLowerCase()`: lower-case every character. -/
def jsToLower (s : String) : String := ⟨s.data.map Char.toLower⟩

/-! ### JavaScript `Map` (insertion-ordered association list) -/

/-- Entry list update of a JS `Map.set`: replace the entry with the given
key in place if present, otherwise append at the end. -/
def setEntries {V : Type} : List (String × V) → String → V → List (String × V)
  | [], k, v => [(k, v)]
  | e :: tl, k, v => if e.1 == k then (k, v) :: tl else e :: setEntries tl k v

/-- A JavaScript `Map` with string keys: insertion-ordered entries. -/
structure JsMap (V : Type) where
  entries : List (String × V)
deriving DecidableEq

/-- JS `map.get(k)` (first entry with the key; keys are unique in any map
built by `set`). -/
def JsMap.get {V : Type} (m : JsMap V) (k : String) : Option V :=
  (m.entries.find? (fun e => e.1 == k)).map (·.2)

/-- JS `map.set(k, v)`. -/
def JsMap.set {V : Type} (m : JsMap V) (k : String) (v : V) : JsMap V :=
  ⟨setEntries m.entries k v⟩

/-- JS `map.delete(k)`. -/
def JsMap.del {V : Type} (m : JsMap V) (k : String) : JsMap V :=
  ⟨m.entries.filter (fun e => !(e.1 == k))⟩

/-- JS `Array.from(map.values())`: values in insertion order. -/
def JsMap.values {V : Type} (m : JsMap V) : List V :=
  m.entries.map (·.2)

/-- Insert `x` into a sorted list, before the first element it compares
`le` to: the insertion step of a stable sort. -/
def insertSorted {α : Type} (le : α → α → Bool) (x : α) : List α → List α
  | [] => [x]
  | y :: tl => if le x y then x :: y :: tl else y :: insertSorted le x tl

/-- Model of JS `Array.prototype.sort(cmp)` for a comparator inducing the
boolean relation `le`: a stable sort (insertion sort, which is stable and
structurally recursive, hence computable by the kernel). -/
def jsSort {α : Type} (le : α → α → Bool) : List α → List α
  | [] => []
  | x :: tl => insertSorted le x (jsSort le tl)

/-! ### Data model

Modelled from the spec: the entity record types come from the shared
schema module (`@shared/schema`), which is not among the provided source
files; the fields below follow the spec's data-model table and the way
the provided server code reads and writes these records. Presentation-only
nullable fields of `Article` (content, description, imageUrl) are omitted;
no embedded operation reads them. -/

/-- A stored user (spec §3; fields as read by `AuthService` and
`MemStorage`). `password` holds the bcrypt hash. -/
structure User where
  id : String
  username : String
  email : String
  password : String
  createdAt : Int
deriving DecidableEq

/-- Registration input (`InsertUser`). -/
structure InsertUser where
  username : String
  email : String
  password : String
deriving DecidableEq

/-- A stored news article (spec §3). `publishedAt` is the publish
timestamp, `likes` the like counter. -/
structure Article where
  id : String
  title : String
  url : String
  category : String
  source : String
  publishedAt : Int
  likes : Int
  createdAt : Int
deriving DecidableEq

/-- A like row: one user's like of one article. -/
structure Like where
  id : String
  userId : String
  articleId : String
  createdAt : Int
deriving DecidableEq

/-- A bookmark row, keyed for deletion by
(userId, resourceType, resourceId). -/
structure Bookmark where
  id : String
  userId : String
  resourceType : String
  resourceId : String
  title : String
  createdAt : Int
deriving DecidableEq

/-- Bookmark creation input (`InsertBookmark`). -/
structure InsertBookmark where
  userId : String
  resourceType : String
  resourceId : String
  title : String
deriving DecidableEq

/-- A TNPSC study resource (spec §3). -/
structure TnpscResource where
  id : String
  title : String
  category : String
  subject : String
  examStage : String
  fileUrl : Option String
  description : Option String
  createdAt : Int
deriving DecidableEq

/-- A comment on an article (spec §3; carried in the state for fidelity,
no embedded claim operates on it). -/
structure Comment where
  id : String
  articleId : String
  userId : String
  content : String
  createdAt : Int
deriving DecidableEq

/-- One chat message of a chat session. -/
structure ChatMessage where
  role : String
  content : String
  timestamp : String
deriving DecidableEq

/-- A chat session (spec §3; carried in the state for fidelity). -/
structure ChatSession where
  id : String
  userId : Option String
  messages : List ChatMessage
  createdAt : Int
deriving DecidableEq

/-! ### MemStorage (`src/server/services/aiServices.ts` lines 287–537)

The private `Map` fields of the class become `JsMap` fields of the state
record; each method becomes a function over the state, returning the new
state where the method mutates it. -/

/-- The in-memory storage state: one insertion-ordered map per entity. -/
structure MemStorage where
  users : JsMap User
  articles : JsMap Article
  comments : JsMap Comment
  likes : JsMap Like
  bookmarks : JsMap Bookmark
  tnpscResources : JsMap TnpscResource
  chatSessions : JsMap ChatSession
deriving DecidableEq

/-- The storage state with every map empty. -/
def emptyMem : MemStorage :=
  ⟨⟨[]⟩, ⟨[]⟩, ⟨[]⟩, ⟨[]⟩, ⟨[]⟩, ⟨[]⟩, ⟨[]⟩⟩

/-- Source `MemStorage.getUserByUsername` (lines 345–347): first user (in
insertion order) whose username equals the argument. -/
def MemStorage.getUserByUsername (s : MemStorage) (username : String) : Option User :=
  s.users.values.find? (fun u => u.username == username)

/-- Source `MemStorage.getUserByEmail` (lines 349–351). -/
def MemStorage.getUserByEmail (s : MemStorage) (email : String) : Option User :=
  s.users.values.find? (fun u => u.email == email)

/-- Source `MemStorage.createUser` (lines 353–362): assign a fresh id and a
creation timestamp, store, return the user. -/
def MemStorage.createUser (s : MemStorage) (freshId : String) (now : Int)
    (d : InsertUser) : User × MemStorage :=
  let user : User :=
    { id := freshId, username := d.username, email := d.email,
      password := d.password, createdAt := now }
  (user, { s with users := s.users.set freshId user })

/-- Comparator of `MemStorage.getArticles` (line 372): JS
`sort((a, b) => b.publishedAt - a.publishedAt)`, i.e. newest-published
first. -/
def byPublishedDesc (a b : Article) : Bool := decide (b.publishedAt ≤ a.publishedAt)

/-- Source `MemStorage.getArticles` (lines 365–374): optional category filter
(`category && category !== 'all'`), sort by published time descending,
then JS `slice(offset, offset + limit)`; `limit` defaults to 20 and
`offset` to 0. -/
def MemStorage.getArticles (s : MemStorage) (category : Option String)
    (limit offset : Option Nat) : List Article :=
  let lim := limit.getD 20
  let off := offset.getD 0
  let articles := s.articles.values
  let filtered : List Article :=
    match category with
    | some c =>
        if jsTruthyStr c && c != "all" then
          articles.filter (fun a => a.category == c)
        else articles
    | none => articles
  ((jsSort byPublishedDesc filtered).drop off).take lim

/-- Source `MemStorage.getArticleById` (lines 376–378). -/
def MemStorage.getArticleById (s : MemStorage) (id : String) : Option Article :=
  s.articles.get id

/-- Source `MemStorage.updateArticleLikes` (lines 399–404): overwrite the `likes`
field of the stored article, no-op when the article is absent. -/
def MemStorage.updateArticleLikes (s : MemStorage) (id : String) (likes : Int) : MemStorage :=
  match s.articles.get id with
  | some article => { s with articles := s.articles.set id { article with likes := likes } }
  | none => s

/-- Source `MemStorage.getLikeByUserAndArticle` (lines 425–428). -/
def MemStorage.getLikeByUserAndArticle (s : MemStorage) (userId articleId : String) :
    Option Like :=
  s.likes.values.find? (fun l => l.userId == userId && l.articleId == articleId)

/-- Source `MemStorage.createLike` (lines 430–440). -/
def MemStorage.createLike (s : MemStorage) (freshId : String) (now : Int)
    (userId articleId : String) : Like × MemStorage :=
  let like : Like := { id := freshId, userId := userId, articleId := articleId, createdAt := now }
  (like, { s with likes := s.likes.set freshId like })

/-- Source `MemStorage.deleteLike` (lines 442–448): find the first like of this
user on this article and delete it by key; no-op when absent. -/
def MemStorage.deleteLike (s : MemStorage) (userId articleId : String) : MemStorage :=
  match s.likes.values.find? (fun l => l.userId == userId && l.articleId == articleId) with
  | some like => { s with likes := s.likes.del like.id }
  | none => s

/-- Comparator of `MemStorage.getBookmarksByUserId` (line 454): creation
time descending. -/
def bookmarkByCreatedDesc (a b : Bookmark) : Bool := decide (b.createdAt ≤ a.createdAt)

/-- Source `MemStorage.getBookmarksByUserId` (lines 451–455): the user's
bookmarks, newest first. -/
def MemStorage.getBookmarksByUserId (s : MemStorage) (userId : String) : List Bookmark :=
  jsSort bookmarkByCreatedDesc (s.bookmarks.values.filter (fun b => b.userId == userId))

/-- Source `MemStorage.createBookmark` (lines 457–466). -/
def MemStorage.createBookmark (s : MemStorage) (freshId : String) (now : Int)
    (d : InsertBookmark) : Bookmark × MemStorage :=
  let bookmark : Bookmark :=
    { id := freshId, userId := d.userId, resourceType := d.resourceType,
      resourceId := d.resourceId, title := d.title, createdAt := now }
  (bookmark, { s with bookmarks := s.bookmarks.set freshId bookmark })

/-- Source `MemStorage.deleteBookmark` (lines 468–474): find the first bookmark
matching the (userId, resourceType, resourceId) composite key and delete
it by key; no-op when absent. -/
def MemStorage.deleteBookmark (s : MemStorage) (userId resourceType resourceId : String) :
    MemStorage :=
  match s.bookmarks.values.find?
      (fun b => b.userId == userId && b.resourceType == resourceType
        && b.resourceId == resourceId) with
  | some b => { s with bookmarks := s.bookmarks.del b.id }
  | none => s

/-- Strict lexicographic order on character sequences, by code point. -/
def charListLt : List Char → List Char → Bool
  | [], [] => false
  | [], _ :: _ => true
  | _ :: _, [] => false
  | a :: as, b :: bs => if a < b then true else if b < a then false else charListLt as bs

/-- Comparator of `MemStorage.getTnpscResources` (line 490): JS
`sort((a, b) => a.title.localeCompare(b.title))`, modelled as ascending
lexicographic order on the title. -/
def tnpscByTitleAsc (a b : TnpscResource) : Bool :=
  charListLt a.title.data b.title.data || a.title == b.title

/-- Source `MemStorage.getTnpscResources` (lines 477–491): successive exact-match
filters for each supplied (truthy) field, then sort by title. -/
def MemStorage.getTnpscResources (s : MemStorage)
    (category subject examStage : Option String) : List TnpscResource :=
  let r0 := s.tnpscResources.values
  let r1 : List TnpscResource :=
    match category with
    | some c => if jsTruthyStr c then r0.filter (fun r => r.category == c) else r0
    | none => r0
  let r2 : List TnpscResource :=
    match subject with
    | some c => if jsTruthyStr c then r1.filter (fun r => r.subject == c) else r1
    | none => r1
  let r3 : List TnpscResource :=
    match examStage with
    | some c => if jsTruthyStr c then r2.filter (fun r => r.examStage == c) else r2
    | none => r2
  jsSort tnpscByTitleAsc r3

/-! ### DatabaseStorage (`src/server/storageNew.ts`)

The relational tables are modelled as lists of rows; a drizzle query
`select … where … orderBy … limit … offset …` is modelled with SQL
semantics: filter by the `WHERE` condition, sort by the `ORDER BY` key,
then apply `OFFSET` and `LIMIT`. -/

/-- The relational storage state: the two tables the embedded queries
touch. -/
structure DatabaseStorage where
  articles : List Article
  tnpscResources : List TnpscResource
deriving DecidableEq

/-- Source `DatabaseStorage.getArticles` (`storageNew.ts` lines 71–79): order by
`publishedAt` descending, optional category filter
(`category && category !== 'all'`), limit (default 20) and offset
(default 0). -/
def DatabaseStorage.getArticles (db : DatabaseStorage) (category : Option String)
    (limit offset : Option Nat) : List Article :=
  let lim := limit.getD 20
  let off := offset.getD 0
  let rows : List Article :=
    match category with
    | some c =>
        if jsTruthyStr c && c != "all" then
          db.articles.filter (fun a => a.category == c)
        else db.articles
    | none => db.articles
  ((jsSort byPublishedDesc rows).drop off).take lim

/-- Comparator of `DatabaseStorage.getTnpscResources` (`storageNew.ts`
line 177): `orderBy(desc(tnpscResources.createdAt))`. -/
def tnpscByCreatedDesc (a b : TnpscResource) : Bool := decide (b.createdAt ≤ a.createdAt)

/-- Source `DatabaseStorage.getTnpscResources` (`storageNew.ts` lines 176–189):
`WHERE` is the AND of one equality condition per supplied (truthy)
filter, ordered by creation time descending. -/
def DatabaseStorage.getTnpscResources (db : DatabaseStorage)
    (category subject examStage : Option String) : List TnpscResource :=
  let matchesRow (r : TnpscResource) : Bool :=
    (match category with
     | some c => if jsTruthyStr c then r.category == c else true
     | none => true) &&
    (match subject with
     | some c => if jsTruthyStr c then r.subject == c else true
     | none => true) &&
    (match examStage with
     | some c => if jsTruthyStr c then r.examStage == c else true
     | none => true)
  jsSort tnpscByCreatedDesc (db.tnpscResources.filter matchesRow)

/-! ### AuthService (`src/server/services/aiServices.ts` lines 146–244)

`jsonwebtoken` and `bcrypt` are third-party libraries; they are modelled
by their contracts (see the file header). -/

/-- The token payload: `jwt.sign` embeds exactly `{userId, username}`
(lines 151–154). -/
structure JWTPayload where
  userId : String
  username : String
deriving DecidableEq

/-- Model of a `jsonwebtoken` token string: either a well-formed token
recording its payload, the secret it was signed with and whether its
7-day window has elapsed, or a malformed string. -/
inductive JwtToken where
  | signed (payload : JWTPayload) (secret : String) (expired : Bool)
  | malformed (raw : String)
deriving DecidableEq

/-- Model of `jwt.sign(payload, secret, { expiresIn: '7d' })`: a fresh
token is well-formed and not yet expired. -/
def jwtSign (payload : JWTPayload) (secret : String) : JwtToken :=
  .signed payload secret false

/-- Model of `jwt.verify(token, secret)`: succeeds exactly on a
well-formed token signed with the matching secret that is not expired;
any failure (malformed, bad signature, expired) raises, modelled as
`Except.error`. -/
def jwtVerifyLib (t : JwtToken) (secret : String) : Except String JWTPayload :=
  match t with
  | .malformed _ => .error "jwt malformed"
  | .signed payload s expired =>
      if s ≠ secret then .error "invalid signature"
      else if expired then .error "jwt expired"
      else .ok payload

/-- Model of `bcrypt.hash(password, 10)`: a deterministic injective tag;
the model keeps bcrypt's contract that comparing a password against a
hash succeeds exactly when the hash was produced from that password. -/
def bcryptHash (password : String) : String := "bcrypt(" ++ password ++ ")"

/-- Model of `bcrypt.compare(password, hashed)`. -/
def bcryptCompare (password hashed : String) : Bool := hashed == bcryptHash password

/-- The auth service: its only state is the signing secret
(`SESSION_SECRET` or the fallback, line 160). -/
structure AuthService where
  jwtSecret : String
deriving DecidableEq

/-- Source `AuthService.hashPassword` (lines 163–165). -/
def AuthService.hashPassword (_svc : AuthService) (password : String) : String :=
  bcryptHash password

/-- Source `AuthService.verifyPassword` (lines 167–169). -/
def AuthService.verifyPassword (_svc : AuthService) (password hashedPassword : String) : Bool :=
  bcryptCompare password hashedPassword

/-- Source `AuthService.generateToken` (lines 171–173). -/
def AuthService.generateToken (svc : AuthService) (payload : JWTPayload) : JwtToken :=
  jwtSign payload svc.jwtSecret

/-- Source `AuthService.verifyToken` (lines 175–181): `jwt.verify` inside
`try/catch`, so every failure becomes `none` and nothing escapes. -/
def AuthService.verifyToken (svc : AuthService) (token : JwtToken) : Option JWTPayload :=
  match jwtVerifyLib token svc.jwtSecret with
  | .ok payload => some payload
  | .error _ => none

/-- The user record returned by register/login: the stored user with the
`password` field stripped (lines 211, 239). -/
structure AuthUser where
  id : String
  username : String
  email : String
  createdAt : Int
deriving DecidableEq

/-- Strip the password from a stored user. -/
def User.withoutPassword (u : User) : AuthUser :=
  ⟨u.id, u.username, u.email, u.createdAt⟩

/-- Source `AuthService.register` (lines 183–213): reject a duplicate email,
then a duplicate username; otherwise hash the password, create the user,
sign a token over `{userId, username}` and return the password-free user
with the token. The storage state is threaded explicitly; on an error
the state is returned unchanged (the method throws before mutating). -/
def AuthService.register (svc : AuthService) (s : MemStorage) (freshId : String)
    (now : Int) (userData : InsertUser) :
    Except String (AuthUser × JwtToken) × MemStorage :=
  match s.getUserByEmail userData.email with
  | some _ => (.error "User with this email already exists", s)
  | none =>
    match s.getUserByUsername userData.username with
    | some _ => (.error "Username already taken", s)
    | none =>
      let hashedPassword := svc.hashPassword userData.password
      let (user, s1) := s.createUser freshId now { userData with password := hashedPassword }
      let token := svc.generateToken { userId := user.id, username := user.username }
      (.ok (user.withoutPassword, token), s1)

/-- Source `AuthService.login` (lines 215–241): resolve the identifier as a
username first, then as an email; fail with `"Invalid credentials"` on a
miss and with the same message on a password mismatch; on success sign a
token exactly as register does. Login never mutates storage. -/
def AuthService.login (svc : AuthService) (s : MemStorage) (username password : String) :
    Except String (AuthUser × JwtToken) :=
  let user? : Option User :=
    match s.getUserByUsername username with
    | some u => some u
    | none => s.getUserByEmail username
  match user? with
  | none => .error "Invalid credentials"
  | some user =>
      if svc.verifyPassword password user.password then
        .ok (user.withoutPassword,
          svc.generateToken { userId := user.id, username := user.username })
      else
        .error "Invalid credentials"

/-! ### AIService.detectFakeNews (`src/server/services/aiServices.ts`
lines 45–113) -/

/-- The declared three-valued credibility type of `detectFakeNews`. -/
inductive Credibility where
  | high
  | medium
  | low
deriving DecidableEq

/-- The result record of `detectFakeNews`. -/
structure FakeNewsResult where
  isReal : Bool
  confidence : ℚ
  explanation : String
  sourceCredibility : Credibility
deriving DecidableEq

/-- The parsed JSON reply of the LLM call inside `detectFakeNews`; each
field may be absent (`undefined` after `JSON.parse`). -/
structure AIRawResult where
  isReal : Option Bool
  confidence : Option ℚ
  explanation : Option String
deriving DecidableEq

/-- The hard-coded trusted source list (lines 55–62). -/
def trustedSources : List String :=
  ["thanthi", "polimer", "suntv", "times of india", "the hindu", "indian express"]

/-- Source `AIService.detectFakeNews` (lines 45–113). `aiResponse` is the
external LLM oracle: `none` models the upstream call throwing (caught
and re-thrown as `"Failed to analyze news authenticity"`), `some r` a
parsed reply. A truthy source containing a trusted name short-circuits
to the fixed high-credibility verdict without touching the oracle. The
JS truthiness defaults `result.isReal || false`,
`result.confidence || 0.5` and `result.explanation || "Analysis
completed"` are modelled field by field, and the confidence is clamped
into [0, 1]. -/
def detectFakeNews (aiResponse : Option AIRawResult) (_text : String)
    (source : Option String) : Except String FakeNewsResult :=
  let sourceCredibility : Credibility :=
    match source with
    | some s =>
        if jsTruthyStr s
            && trustedSources.any (fun trusted => jsIncludes (jsToLower s) trusted) then
          .high
        else .medium
    | none => .medium
  if sourceCredibility = .high then
    .ok { isReal := true, confidence := 0.95,
          explanation := "This news comes from a trusted and verified source.",
          sourceCredibility := .high }
  else
    match aiResponse with
    | none => .error "Failed to analyze news authenticity"
    | some r =>
        let isReal : Bool :=
          match r.isReal with
          | some b => b
          | none => false
        let conf : ℚ :=
          match r.confidence with
          | some c => if c = 0 then 0.5 else c
          | none => 0.5
        let explanation : String :=
          match r.explanation with
          | some e => if e = "" then "Analysis completed" else e
          | none => "Analysis completed"
        .ok { isReal := isReal, confidence := max 0 (min 1 conf),
              explanation := explanation, sourceCredibility := sourceCredibility }

/-! ### Like-toggle route (`src/server/routes.ts` lines 354–383) -/

/-- The JSON the like-toggle handler responds with. -/
inductive ToggleResponse where
  | notFound
  | toggled (liked : Bool) (likes : Int)
deriving DecidableEq

/-- Source `POST /api/articles/:id/like` (routes.ts lines 354–383): look up the
caller's existing like and the article; 404 when the article is absent;
otherwise delete the like and write `Math.max(0, likes - 1)`, or create
a like and write `likes + 1`. `freshLikeId` and `now` stand for the
`randomUUID()`/`new Date()` drawn inside `createLike` on the like path.
The schema guarantees a non-null `likes`, so the JS `article.likes || 0`
guard is the identity in this model. -/
def toggleLike (s : MemStorage) (userId articleId : String) (freshLikeId : String)
    (now : Int) : ToggleResponse × MemStorage :=
  let existingLike := s.getLikeByUserAndArticle userId articleId
  match s.getArticleById articleId with
  | none => (.notFound, s)
  | some article =>
      match existingLike with
      | some _ =>
          let s1 := s.deleteLike userId articleId
          let newLikes := max 0 (article.likes - 1)
          let s2 := s1.updateArticleLikes articleId newLikes
          (.toggled false newLikes, s2)
      | none =>
          let (_, s1) := s.createLike freshLikeId now userId articleId
          let newLikes := article.likes + 1
          let s2 := s1.updateArticleLikes articleId newLikes
          (.toggled true newLikes, s2)

/-! ### Helper lemmas on the `JsMap` model -/

theorem setEntries_of_fresh {V : Type} {l : List (String × V)} {k : String} (v : V)
    (h : ∀ e ∈ l, e.1 ≠ k) : setEntries l k v = l ++ [(k, v)] := by
  induction l with
  | nil => rfl
  | cons e tl ih =>
      have he : (e.1 == k) = false := beq_eq_false_iff_ne.mpr (h e (by simp))
      simp only [setEntries, he, if_neg Bool.false_ne_true, cond_false]
      simp only [List.cons_append, List.cons.injEq, true_and]
      exact ih (fun x hx => h x (by simp [hx]))

theorem values_set_fresh {V : Type} (m : JsMap V) (k : String) (v : V)
    (h : ∀ e ∈ m.entries, e.1 ≠ k) :
    (m.set k v).values = m.values ++ [v] := by
  simp [JsMap.set, JsMap.values, setEntries_of_fresh v h]

theorem entries_set_fresh {V : Type} (m : JsMap V) (k : String) (v : V)
    (h : ∀ e ∈ m.entries, e.1 ≠ k) :
    (m.set k v).entries = m.entries ++ [(k, v)] := by
  simp [JsMap.set, setEntries_of_fresh v h]

theorem find?_setEntries_self {V : Type} (l : List (String × V)) (k : String) (v : V) :
    (setEntries l k v).find? (fun e => e.1 == k) = some (k, v) := by
  induction l with
  | nil => simp [setEntries, List.find?]
  | cons e tl ih =>
      by_cases he : (e.1 == k) = true
      · simp [setEntries, he, List.find?]
      · have he' : (e.1 == k) = false := by simpa using he
        simp [setEntries, he', List.find?, ih]

theorem get_set_self {V : Type} (m : JsMap V) (k : String) (v : V) :
    (m.set k v).get k = some v := by
  simp [JsMap.get, JsMap.set, find?_setEntries_self]

theorem del_set_fresh {V : Type} (m : JsMap V) (k : String) (v : V)
    (h : ∀ e ∈ m.entries, e.1 ≠ k) :
    (m.set k v).del k = m := by
  have : ((m.set k v).entries.filter (fun e => !(e.1 == k))) = m.entries := by
    rw [entries_set_fresh m k v h, List.filter_append]
    have h1 : m.entries.filter (fun e => !(e.1 == k)) = m.entries :=
      List.filter_eq_self.mpr (fun e he => by
        simpa using beq_eq_false_iff_ne.mpr (h e he))
    have h2 : ([(k, v)].filter (fun e => !(e.1 == k)) : List (String × V)) = [] := by
      simp [List.filter]
    rw [h1, h2, List.append_nil]
  simp [JsMap.del, this]

theorem mem_insertSorted {α : Type} (le : α → α → Bool) (x a : α) (l : List α) :
    a ∈ insertSorted le x l ↔ a = x ∨ a ∈ l := by
  induction l with
  | nil => simp [insertSorted]
  | cons y tl ih =>
      by_cases h : le x y = true
      · simp [insertSorted, h]
      · have h' : le x y = false := by simpa using h
        simp only [insertSorted, h', Bool.false_eq_true, if_false, List.mem_cons, ih]
        tauto

theorem mem_jsSort {α : Type} (le : α → α → Bool) (a : α) (l : List α) :
    a ∈ jsSort le l ↔ a ∈ l := by
  induction l with
  | nil => simp [jsSort]
  | cons x tl ih => simp [jsSort, mem_insertSorted, ih]

theorem pairwise_insertSorted {α : Type} (le : α → α → Bool)
    (htrans : ∀ a b c, le a b = true → le b c = true → le a c = true)
    (htotal : ∀ a b, (le a b || le b a) = true)
    (x : α) (l : List α) (hl : l.Pairwise (fun a b => le a b = true)) :
    (insertSorted le x l).Pairwise (fun a b => le a b = true) := by
  induction l with
  | nil => simp [insertSorted]
  | cons y tl ih =>
      rcases List.pairwise_cons.mp hl with ⟨hy, htl⟩
      by_cases h : le x y = true
      · simp only [insertSorted, h, if_true]
        refine List.pairwise_cons.mpr ⟨?_, hl⟩
        intro z hz
        rcases List.mem_cons.mp hz with rfl | hz'
        · exact h
        · exact htrans x y z h (hy z hz')
      · have h' : le x y = false := by simpa using h
        have hyx : le y x = true := by
          have ht := htotal x y
          rw [h'] at ht
          simpa using ht
        simp only [insertSorted, h', Bool.false_eq_true, if_false]
        refine List.pairwise_cons.mpr ⟨?_, ih htl⟩
        intro z hz
        rcases (mem_insertSorted le x z tl).mp hz with rfl | hz'
        · exact hyx
        · exact hy z hz'

theorem pairwise_jsSort {α : Type} (le : α → α → Bool)
    (htrans : ∀ a b c, le a b = true → le b c = true → le a c = true)
    (htotal : ∀ a b, (le a b || le b a) = true)
    (l : List α) :
    (jsSort le l).Pairwise (fun a b => le a b = true) := by
  induction l with
  | nil => simp [jsSort]
  | cons x tl ih => exact pairwise_insertSorted le htrans htotal x _ ih

theorem mem_of_mem_take_drop {α : Type} {a : α} {l : List α} {off lim : ℕ}
    (h : a ∈ (l.drop off).take lim) : a ∈ l :=
  ((List.take_sublist _ _).trans (List.drop_sublist _ _)).mem h

theorem byPublishedDesc_trans : ∀ a b c : Article,
    byPublishedDesc a b = true → byPublishedDesc b c = true → byPublishedDesc a c = true := by
  intro a b c hab hbc
  simp only [byPublishedDesc, decide_eq_true_eq] at *
  omega

theorem byPublishedDesc_total : ∀ a b : Article,
    (byPublishedDesc a b || byPublishedDesc b a) = true := by
  intro a b
  simp only [byPublishedDesc, Bool.or_eq_true, decide_eq_true_eq]
  omega

/-! ### Claim theorems -/

/-- C3: for every storage state in which the given email or the given
username already belongs to an existing user, `register` fails with an
error and the stored users are unchanged (the whole state is unchanged,
so in particular no new user is created). -/
theorem register_duplicate_fails_and_preserves_users
    (svc : AuthService) (s : MemStorage) (freshId : String) (now : Int) (d : InsertUser)
    (h : (s.getUserByEmail d.email).isSome = true
      ∨ (s.getUserByUsername d.username).isSome = true) :
    (svc.register s freshId now d).1.isOk = false ∧
    (svc.register s freshId now d).2 = s := by
  cases hE : s.getUserByEmail d.email with
  | some u => simp [AuthService.register, hE, Except.isOk, Except.toBool]
  | none =>
      cases hU : s.getUserByUsername d.username with
      | some u => simp [AuthService.register, hE, hU, Except.isOk, Except.toBool]
      | none =>
          rcases h with h | h
          · rw [hE] at h; simp at h
          · rw [hU] at h; simp at h

/-- C3 witness: a state holding the user `alice` rejects a registration
reusing `alice`'s email, leaving the state unchanged. -/
theorem register_duplicate_fails_and_preserves_users_witness :
    ((({ emptyMem with users := ⟨[("u0",
        ⟨"u0", "alice", "alice@x.com", bcryptHash "pw", 0⟩)]⟩ } : MemStorage).getUserByEmail
        "alice@x.com").isSome = true
      ∨ (({ emptyMem with users := ⟨[("u0",
        ⟨"u0", "alice", "alice@x.com", bcryptHash "pw", 0⟩)]⟩ } : MemStorage).getUserByUsername
        "bob").isSome = true) ∧
    ((AuthService.mk "secret").register
        { emptyMem with users := ⟨[("u0", ⟨"u0", "alice", "alice@x.com", bcryptHash "pw", 0⟩)]⟩ }
        "u1" 5 ⟨"bob", "alice@x.com", "pw2"⟩).1.isOk = false ∧
    ((AuthService.mk "secret").register
        { emptyMem with users := ⟨[("u0", ⟨"u0", "alice", "alice@x.com", bcryptHash "pw", 0⟩)]⟩ }
        "u1" 5 ⟨"bob", "alice@x.com", "pw2"⟩).2 =
      { emptyMem with users := ⟨[("u0", ⟨"u0", "alice", "alice@x.com", bcryptHash "pw", 0⟩)]⟩ } := by
  refine ⟨Or.inl (by decide), ?_⟩
  exact register_duplicate_fails_and_preserves_users (AuthService.mk "secret") _ "u1" 5
    ⟨"bob", "alice@x.com", "pw2"⟩ (Or.inl (by decide))

/-- C5: login with an identifier that resolves to a stored user but a
password that does not match that user's stored hash fails with
`"Invalid credentials"`, and login with an identifier that resolves to no
stored user fails with the identical error, so the two failures are
observably the same. -/
theorem login_mismatch_and_miss_same_error
    (svc : AuthService) (s : MemStorage) (idA pA : String) (u : User)
    (hres : (match s.getUserByUsername idA with
             | some x => some x
             | none => s.getUserByEmail idA) = some u)
    (hmismatch : bcryptCompare pA u.password = false)
    (idB pB : String)
    (hmissUser : s.getUserByUsername idB = none)
    (hmissEmail : s.getUserByEmail idB = none) :
    svc.login s idA pA = .error "Invalid credentials" ∧
    svc.login s idB pB = .error "Invalid credentials" := by
  constructor
  · simp only [AuthService.login, hres, AuthService.verifyPassword, hmismatch,
      Bool.false_eq_true, if_false]
  · simp only [AuthService.login, hmissUser, hmissEmail]

/-- C5 witness: with `alice` stored, login as `alice` with a wrong
password and login as the unknown `mallory` produce the same error. -/
theorem login_mismatch_and_miss_same_error_witness :
    ((match ({ emptyMem with users := ⟨[("u0",
          ⟨"u0", "alice", "alice@x.com", bcryptHash "right", 0⟩)]⟩ } :
          MemStorage).getUserByUsername "alice" with
      | some x => some x
      | none => ({ emptyMem with users := ⟨[("u0",
          ⟨"u0", "alice", "alice@x.com", bcryptHash "right", 0⟩)]⟩ } :
          MemStorage).getUserByEmail "alice") =
        some ⟨"u0", "alice", "alice@x.com", bcryptHash "right", 0⟩) ∧
    bcryptCompare "wrong" (bcryptHash "right") = false ∧
    (AuthService.mk "secret").login
      { emptyMem with users := ⟨[("u0", ⟨"u0", "alice", "alice@x.com", bcryptHash "right", 0⟩)]⟩ }
      "alice" "wrong" = .error "Invalid credentials" ∧
    (AuthService.mk "secret").login
      { emptyMem with users := ⟨[("u0", ⟨"u0", "alice", "alice@x.com", bcryptHash "right", 0⟩)]⟩ }
      "mallory" "anything" = .error "Invalid credentials" := by
  refine ⟨by decide, by decide, ?_⟩
  have := login_mismatch_and_miss_same_error (AuthService.mk "secret")
    { emptyMem with users := ⟨[("u0", ⟨"u0", "alice", "alice@x.com", bcryptHash "right", 0⟩)]⟩ }
    "alice" "wrong" ⟨"u0", "alice", "alice@x.com", bcryptHash "right", 0⟩
    (by decide) (by decide) "mallory" "anything" (by decide) (by decide)
  exact this

/-- C6: `verifyToken` is a total function into `Option` (the `try/catch`
in the source turns every `jwt.verify` failure into `null`, so nothing
escapes); it returns the embedded payload exactly on a token signed with
the service's secret that has not expired, and `none` on every failure
(malformed, bad signature, expired). -/
theorem verifyToken_total_and_exact (svc : AuthService) (t : JwtToken) :
    (∀ p : JWTPayload, svc.verifyToken t = some p ↔
      t = JwtToken.signed p svc.jwtSecret false) ∧
    ((∀ p : JWTPayload, t ≠ JwtToken.signed p svc.jwtSecret false) →
      svc.verifyToken t = none) := by
  have exact1 : ∀ p : JWTPayload, svc.verifyToken t = some p ↔
      t = JwtToken.signed p svc.jwtSecret false := by
    intro p
    constructor
    · intro h
      cases t with
      | malformed raw => simp [AuthService.verifyToken, jwtVerifyLib] at h
      | signed pl sec exp =>
          by_cases hs : sec = svc.jwtSecret
          · subst hs
            cases exp with
            | true => simp [AuthService.verifyToken, jwtVerifyLib] at h
            | false =>
                simp [AuthService.verifyToken, jwtVerifyLib] at h
                simp [h]
          · simp [AuthService.verifyToken, jwtVerifyLib, hs] at h
    · rintro rfl
      simp [AuthService.verifyToken, jwtVerifyLib]
  refine ⟨exact1, ?_⟩
  intro hnv
  cases hv : svc.verifyToken t with
  | none => rfl
  | some p => exact absurd ((exact1 p).mp hv) (hnv p)

/-- C6 witness: a malformed token is not a validly signed one, and
verification returns `none` on it rather than failing. -/
theorem verifyToken_total_and_exact_witness :
    (∀ p : JWTPayload, JwtToken.malformed "xyz" ≠ JwtToken.signed p "secret" false) ∧
    (AuthService.mk "secret").verifyToken (JwtToken.malformed "xyz") = none := by
  refine ⟨fun p hc => JwtToken.noConfusion hc, ?_⟩
  exact (verifyToken_total_and_exact (AuthService.mk "secret") (JwtToken.malformed "xyz")).2
    (fun p hc => JwtToken.noConfusion hc)

/-- C1 counterexample: the claim fails for login-by-email when an
existing user's *username* equals the new user's email. With `u0` stored
under username `"a@x.com"`, registering `{username := "b",
email := "a@x.com"}` succeeds (no stored user has that email and none
has username `"b"`), but the subsequent login with the email
`"a@x.com"` resolves the identifier as a username first, finds `u0`,
fails the password check and reports invalid credentials. -/
theorem register_login_email_shadowed_counterexample :
    ((AuthService.mk "secret").register
        { emptyMem with users := ⟨[("u0", ⟨"u0", "a@x.com", "u0@y.com", bcryptHash "q", 0⟩)]⟩ }
        "u1" 0 ⟨"b", "a@x.com", "p"⟩).1.isOk = true ∧
    (AuthService.mk "secret").login
        ((AuthService.mk "secret").register
          { emptyMem with users := ⟨[("u0", ⟨"u0", "a@x.com", "u0@y.com", bcryptHash "q", 0⟩)]⟩ }
          "u1" 0 ⟨"b", "a@x.com", "p"⟩).2
        "a@x.com" "p" = .error "Invalid credentials" := by
  constructor
  · decide
  · decide

/-- C1 (amended): after a register whose username and email are not yet
stored (and whose fresh id is new), login with the same username and the
same plaintext password succeeds and returns a token whose verification
yields exactly the created user's id and username; login with the email
succeeds identically *provided additionally* that no already-stored
user's username equals that email string (the source resolves the login
identifier as a username first). -/
theorem register_login_roundtrip
    (svc : AuthService) (s : MemStorage) (freshId : String) (now : Int) (d : InsertUser)
    (hEmail : s.getUserByEmail d.email = none)
    (hUser : s.getUserByUsername d.username = none)
    (hFresh : ∀ e ∈ s.users.entries, e.1 ≠ freshId)
    (hShadow : ∀ u ∈ s.users.values, u.username ≠ d.email) :
    (svc.register s freshId now d).1 =
      .ok (⟨freshId, d.username, d.email, now⟩, jwtSign ⟨freshId, d.username⟩ svc.jwtSecret) ∧
    svc.verifyToken (jwtSign ⟨freshId, d.username⟩ svc.jwtSecret) =
      some ⟨freshId, d.username⟩ ∧
    svc.login (svc.register s freshId now d).2 d.username d.password =
      .ok (⟨freshId, d.username, d.email, now⟩, jwtSign ⟨freshId, d.username⟩ svc.jwtSecret) ∧
    svc.login (svc.register s freshId now d).2 d.email d.password =
      .ok (⟨freshId, d.username, d.email, now⟩, jwtSign ⟨freshId, d.username⟩ svc.jwtSecret) := by
  have hreg : svc.register s freshId now d =
      (.ok (⟨freshId, d.username, d.email, now⟩,
          jwtSign ⟨freshId, d.username⟩ svc.jwtSecret),
        { s with users :=
            s.users.set freshId ⟨freshId, d.username, d.email, bcryptHash d.password, now⟩ }) := by
    simp [AuthService.register, hEmail, hUser, MemStorage.createUser,
      AuthService.hashPassword, AuthService.generateToken, User.withoutPassword]
  have hreg2 : (svc.register s freshId now d).2 =
      { s with users :=
          s.users.set freshId ⟨freshId, d.username, d.email, bcryptHash d.password, now⟩ } := by
    rw [hreg]
  have hvals : ((svc.register s freshId now d).2).users.values =
      s.users.values ++ [⟨freshId, d.username, d.email, bcryptHash d.password, now⟩] := by
    rw [hreg2]
    exact values_set_fresh _ _ _ hFresh
  have hUser' : s.users.values.find? (fun u => u.username == d.username) = none := hUser
  have hEmail' : s.users.values.find? (fun u => u.email == d.email) = none := hEmail
  have hByUsername : ((svc.register s freshId now d).2).getUserByUsername d.username =
      some ⟨freshId, d.username, d.email, bcryptHash d.password, now⟩ := by
    simp only [MemStorage.getUserByUsername, hvals, List.find?_append, hUser', Option.none_or]
    simp [List.find?]
  have hverify : svc.verifyPassword d.password (bcryptHash d.password) = true := by
    simp [AuthService.verifyPassword, bcryptCompare]
  have hShadow' : s.users.values.find? (fun u => u.username == d.email) = none :=
    List.find?_eq_none.mpr (fun u hu => by
      simpa using beq_eq_false_iff_ne.mpr (hShadow u hu))
  have hresolve :
      (match ((svc.register s freshId now d).2).getUserByUsername d.email with
        | some u => some u
        | none => ((svc.register s freshId now d).2).getUserByEmail d.email) =
        some (⟨freshId, d.username, d.email, bcryptHash d.password, now⟩ : User) := by
    by_cases hud : d.username = d.email
    · have hu1 : ((svc.register s freshId now d).2).getUserByUsername d.email =
          some ⟨freshId, d.username, d.email, bcryptHash d.password, now⟩ := by
        simp only [MemStorage.getUserByUsername, hvals, List.find?_append, hShadow',
          Option.none_or]
        simp [List.find?, hud]
      simp [hu1]
    · have hu2 : ((svc.register s freshId now d).2).getUserByUsername d.email = none := by
        simp only [MemStorage.getUserByUsername, hvals, List.find?_append, hShadow',
          Option.none_or]
        simp [List.find?, beq_eq_false_iff_ne.mpr hud]
      have he2 : ((svc.register s freshId now d).2).getUserByEmail d.email =
          some ⟨freshId, d.username, d.email, bcryptHash d.password, now⟩ := by
        simp only [MemStorage.getUserByEmail, hvals, List.find?_append, hEmail',
          Option.none_or]
        simp [List.find?]
      simp [hu2, he2]
  refine ⟨by rw [hreg], ?_, ?_, ?_⟩
  · simp [AuthService.verifyToken, jwtVerifyLib, jwtSign]
  · simp only [AuthService.login, hByUsername, hverify, if_true]
    simp [User.withoutPassword, AuthService.generateToken, jwtSign]
  · simp only [AuthService.login, hresolve, hverify, if_true]
    simp [User.withoutPassword, AuthService.generateToken, jwtSign]

/-- C1 (amended) witness: on the empty storage, registering `alice` and
logging back in by username and by email both succeed with the expected
verified token. -/
theorem register_login_roundtrip_witness :
    (emptyMem.getUserByEmail "alice@x.com" = none ∧
      emptyMem.getUserByUsername "alice" = none ∧
      (∀ e ∈ emptyMem.users.entries, e.1 ≠ "u1") ∧
      (∀ u ∈ emptyMem.users.values, u.username ≠ "alice@x.com")) ∧
    ((AuthService.mk "secret").register emptyMem "u1" 7 ⟨"alice", "alice@x.com", "pw"⟩).1 =
      .ok (⟨"u1", "alice", "alice@x.com", 7⟩, jwtSign ⟨"u1", "alice"⟩ "secret") ∧
    (AuthService.mk "secret").verifyToken (jwtSign ⟨"u1", "alice"⟩ "secret") =
      some ⟨"u1", "alice"⟩ ∧
    (AuthService.mk "secret").login
        ((AuthService.mk "secret").register emptyMem "u1" 7 ⟨"alice", "alice@x.com", "pw"⟩).2
        "alice" "pw" =
      .ok (⟨"u1", "alice", "alice@x.com", 7⟩, jwtSign ⟨"u1", "alice"⟩ "secret") ∧
    (AuthService.mk "secret").login
        ((AuthService.mk "secret").register emptyMem "u1" 7 ⟨"alice", "alice@x.com", "pw"⟩).2
        "alice@x.com" "pw" =
      .ok (⟨"u1", "alice", "alice@x.com", 7⟩, jwtSign ⟨"u1", "alice"⟩ "secret") := by
  refine ⟨⟨by decide, by decide, by decide, by decide⟩, ?_⟩
  exact register_login_roundtrip (AuthService.mk "secret") emptyMem "u1" 7
    ⟨"alice", "alice@x.com", "pw"⟩ (by decide) (by decide) (by decide) (by decide)

/-- C4: on an existing article with a non-negative like count and no
existing like by the caller, the like-toggle route responds with a like
(count + 1), and toggling again responds with an unlike whose count — and
the article's stored like count — equal the original value. -/
theorem like_unlike_restores_count
    (s : MemStorage) (userId articleId lid1 lid2 : String) (t1 t2 : Int) (a : Article)
    (hart : s.getArticleById articleId = some a)
    (hpos : 0 ≤ a.likes)
    (hnolike : s.getLikeByUserAndArticle userId articleId = none)
    (hfresh : ∀ e ∈ s.likes.entries, e.1 ≠ lid1) :
    (toggleLike s userId articleId lid1 t1).1 = .toggled true (a.likes + 1) ∧
    (toggleLike ((toggleLike s userId articleId lid1 t1).2) userId articleId lid2 t2).1 =
      .toggled false a.likes ∧
    (((toggleLike ((toggleLike s userId articleId lid1 t1).2) userId articleId
        lid2 t2).2).getArticleById articleId).map Article.likes = some a.likes := by
  have hartU : s.articles.get articleId = some a := hart
  have hlikeU : s.likes.values.find?
      (fun l => l.userId == userId && l.articleId == articleId) = none := hnolike
  have h1 : toggleLike s userId articleId lid1 t1 =
      (.toggled true (a.likes + 1),
        { s with
          articles := s.articles.set articleId { a with likes := a.likes + 1 },
          likes := s.likes.set lid1 ⟨lid1, userId, articleId, t1⟩ }) := by
    simp [toggleLike, MemStorage.getLikeByUserAndArticle, hlikeU,
      MemStorage.getArticleById, hartU, MemStorage.createLike, MemStorage.updateArticleLikes]
  set s1 : MemStorage := (toggleLike s userId articleId lid1 t1).2 with hs1
  have h1s : s1 =
      { s with
        articles := s.articles.set articleId { a with likes := a.likes + 1 },
        likes := s.likes.set lid1 ⟨lid1, userId, articleId, t1⟩ } := by
    rw [hs1, h1]
  have f1 : s1.articles.get articleId = some { a with likes := a.likes + 1 } := by
    rw [h1s]
    exact get_set_self _ _ _
  have f3 : s1.likes.values.find?
      (fun l => l.userId == userId && l.articleId == articleId) =
      some ⟨lid1, userId, articleId, t1⟩ := by
    have f2 : s1.likes.values = s.likes.values ++ [⟨lid1, userId, articleId, t1⟩] := by
      rw [h1s]
      exact values_set_fresh _ _ _ hfresh
    rw [f2, List.find?_append, hlikeU, Option.none_or]
    simp [List.find?]
  have f4 : s1.likes.del lid1 = s.likes := by
    rw [h1s]
    exact del_set_fresh _ _ _ hfresh
  have hmax : max 0 (a.likes + 1 - 1) = a.likes := by
    have h : a.likes + 1 - 1 = a.likes := by omega
    rw [h]
    exact max_eq_right hpos
  refine ⟨by rw [h1], ?_, ?_⟩
  · simp only [toggleLike, MemStorage.getLikeByUserAndArticle, f3,
      MemStorage.getArticleById, f1, MemStorage.deleteLike, MemStorage.updateArticleLikes, f4]
    simp [hmax, hpos]
  · simp only [toggleLike, MemStorage.getLikeByUserAndArticle, f3,
      MemStorage.getArticleById, f1, MemStorage.deleteLike, MemStorage.updateArticleLikes, f4]
    simp [get_set_self, hmax, hpos, MemStorage.getArticleById]

/-- C4 witness: a concrete article with zero likes, liked and unliked by
user `u1`, ends with its stored like count back at zero. -/
theorem like_unlike_restores_count_witness :
    (({ emptyMem with
        articles := ⟨[("a1", ⟨"a1", "T", "u", "general", "src", 100, 0, 0⟩)]⟩ } :
          MemStorage).getArticleById "a1" =
        some ⟨"a1", "T", "u", "general", "src", 100, 0, 0⟩ ∧
      (0 : Int) ≤ (0 : Int) ∧
      ({ emptyMem with
        articles := ⟨[("a1", ⟨"a1", "T", "u", "general", "src", 100, 0, 0⟩)]⟩ } :
          MemStorage).getLikeByUserAndArticle "u1" "a1" = none) ∧
    (((toggleLike
        (toggleLike { emptyMem with
          articles := ⟨[("a1", ⟨"a1", "T", "u", "general", "src", 100, 0, 0⟩)]⟩ }
          "u1" "a1" "l1" 3).2 "u1" "a1" "l2" 4).2).getArticleById "a1").map Article.likes =
      some 0 := by
  refine ⟨⟨by decide, by decide, by decide⟩, ?_⟩
  exact (like_unlike_restores_count
    { emptyMem with articles := ⟨[("a1", ⟨"a1", "T", "u", "general", "src", 100, 0, 0⟩)]⟩ }
    "u1" "a1" "l1" "l2" 3 4 ⟨"a1", "T", "u", "general", "src", 100, 0, 0⟩
    (by decide) (by decide) (by decide) (by decide)).2.2

/-- C8 counterexample: when the user already has a bookmark for the same
(resourceType, resourceId) pair, create-then-delete does *not* clear the
pair: `deleteBookmark` removes only the first matching row (the old
one), so the newly created duplicate survives in the user's list. -/
theorem bookmark_create_delete_duplicate_counterexample :
    ((((({ emptyMem with
        bookmarks := ⟨[("b0", ⟨"b0", "u", "t", "r", "Old", 0⟩)]⟩ } :
          MemStorage).createBookmark "b1" 1 ⟨"u", "t", "r", "New"⟩).2).deleteBookmark
        "u" "t" "r").getBookmarksByUserId "u" = [⟨"b1", "u", "t", "r", "New", 1⟩]) ∧
    ¬(∀ b ∈ (((({ emptyMem with
        bookmarks := ⟨[("b0", ⟨"b0", "u", "t", "r", "Old", 0⟩)]⟩ } :
          MemStorage).createBookmark "b1" 1 ⟨"u", "t", "r", "New"⟩).2).deleteBookmark
        "u" "t" "r").getBookmarksByUserId "u",
      ¬(b.resourceType = "t" ∧ b.resourceId = "r")) := by
  constructor
  · decide
  · decide

/-- C8 (amended): *provided the user has no existing bookmark with the
same (resourceType, resourceId) pair*, creating a bookmark and then
deleting by the same (userId, resourceType, resourceId) composite key
restores the storage state exactly, and in particular the user's
bookmark list has no entry for that pair. -/
theorem bookmark_create_delete_removes_pair
    (s : MemStorage) (freshId : String) (now : Int) (d : InsertBookmark)
    (hfresh : ∀ e ∈ s.bookmarks.entries, e.1 ≠ freshId)
    (hnone : ∀ b ∈ s.bookmarks.values,
      ¬(b.userId = d.userId ∧ b.resourceType = d.resourceType ∧ b.resourceId = d.resourceId)) :
    (((s.createBookmark freshId now d).2).deleteBookmark d.userId d.resourceType
        d.resourceId = s) ∧
    ∀ b ∈ (((s.createBookmark freshId now d).2).deleteBookmark d.userId d.resourceType
        d.resourceId).getBookmarksByUserId d.userId,
      ¬(b.resourceType = d.resourceType ∧ b.resourceId = d.resourceId) := by
  have hcreate : (s.createBookmark freshId now d).2 =
      { s with bookmarks :=
          s.bookmarks.set freshId ⟨freshId, d.userId, d.resourceType, d.resourceId, d.title, now⟩ } := by
    simp [MemStorage.createBookmark]
  have hprednone : s.bookmarks.values.find?
      (fun b => b.userId == d.userId && b.resourceType == d.resourceType
        && b.resourceId == d.resourceId) = none := by
    refine List.find?_eq_none.mpr (fun b hb => ?_)
    have h := hnone b hb
    simp only [Bool.and_eq_true, beq_iff_eq]
    tauto
  have hvals : ((s.createBookmark freshId now d).2).bookmarks.values =
      s.bookmarks.values ++ [⟨freshId, d.userId, d.resourceType, d.resourceId, d.title, now⟩] := by
    rw [hcreate]
    exact values_set_fresh _ _ _ hfresh
  have hfind : ((s.createBookmark freshId now d).2).bookmarks.values.find?
      (fun b => b.userId == d.userId && b.resourceType == d.resourceType
        && b.resourceId == d.resourceId) =
      some ⟨freshId, d.userId, d.resourceType, d.resourceId, d.title, now⟩ := by
    rw [hvals, List.find?_append, hprednone, Option.none_or]
    simp [List.find?]
  have hdel : (((s.createBookmark freshId now d).2).deleteBookmark d.userId d.resourceType
      d.resourceId) = s := by
    simp only [MemStorage.deleteBookmark, hfind]
    rw [hcreate]
    have : ((s.bookmarks.set freshId
        ⟨freshId, d.userId, d.resourceType, d.resourceId, d.title, now⟩).del freshId) =
        s.bookmarks := del_set_fresh _ _ _ hfresh
    simp [this]
  refine ⟨hdel, ?_⟩
  rw [hdel]
  intro b hb
  have hb1 : b ∈ s.bookmarks.values.filter (fun x => x.userId == d.userId) :=
    (mem_jsSort _ _ _).mp hb
  rcases List.mem_filter.mp hb1 with ⟨hbv, hbu⟩
  have h := hnone b hbv
  intro hc
  exact h ⟨beq_iff_eq.mp hbu, hc.1, hc.2⟩

/-- C8 (amended) witness: with an empty bookmark list, creating and
deleting the `(t, r)` bookmark of user `u` leaves the state unchanged
and the pair absent from the user's list. -/
theorem bookmark_create_delete_removes_pair_witness :
    ((∀ e ∈ (emptyMem : MemStorage).bookmarks.entries, e.1 ≠ "b1") ∧
      (∀ b ∈ (emptyMem : MemStorage).bookmarks.values,
        ¬(b.userId = "u" ∧ b.resourceType = "t" ∧ b.resourceId = "r"))) ∧
    ((((emptyMem.createBookmark "b1" 1 ⟨"u", "t", "r", "New"⟩).2).deleteBookmark "u" "t" "r" =
        emptyMem) ∧
      ∀ b ∈ (((emptyMem.createBookmark "b1" 1
          ⟨"u", "t", "r", "New"⟩).2).deleteBookmark "u" "t" "r").getBookmarksByUserId "u",
        ¬(b.resourceType = "t" ∧ b.resourceId = "r")) := by
  refine ⟨⟨by decide, by decide⟩, ?_⟩
  exact bookmark_create_delete_removes_pair emptyMem "b1" 1 ⟨"u", "t", "r", "New"⟩
    (by decide) (by decide)

/-- C7 counterexample: the category string `"all"` is itself a supplied
(non-absent) filter, but the source treats it as the no-filter sentinel:
with one stored article of category `"sports"`, filtering by `"all"`
returns that article, so the result is not restricted to articles whose
category equals the filter. -/
theorem getArticles_all_filter_counterexample :
    ({ emptyMem with
        articles := ⟨[("a1", ⟨"a1", "T", "u", "sports", "src", 5, 0, 0⟩)]⟩ } :
      MemStorage).getArticles (some "all") none none =
      [⟨"a1", "T", "u", "sports", "src", 5, 0, 0⟩] ∧
    ¬(∀ a ∈ ({ emptyMem with
        articles := ⟨[("a1", ⟨"a1", "T", "u", "sports", "src", 5, 0, 0⟩)]⟩ } :
      MemStorage).getArticles (some "all") none none, a.category = "all") := by
  constructor
  · decide
  · decide

/-- C7 (amended): for every supplied category filter other than the empty
string and the sentinel `"all"`, both implementations of `getArticles`
return exactly the matching articles ordered by published timestamp
descending, paginated by `slice(offset, offset + limit)` with the limit
defaulting to 20: the result equals the paginated sort of the filtered
list, every returned article has the filter category, the result is
sorted newest-published-first, and its length is bounded by the limit. -/
theorem getArticles_category_filtered_sorted_paginated
    (s : MemStorage) (db : DatabaseStorage) (c : String) (limit offset : Option Nat)
    (hne : c ≠ "") (hna : c ≠ "all") :
    (s.getArticles (some c) limit offset =
      ((jsSort byPublishedDesc (s.articles.values.filter (fun a => a.category == c))).drop
        (offset.getD 0)).take (limit.getD 20) ∧
     (∀ a ∈ s.getArticles (some c) limit offset, a.category = c) ∧
     (s.getArticles (some c) limit offset).Pairwise
        (fun a b => b.publishedAt ≤ a.publishedAt) ∧
     (s.getArticles (some c) limit offset).length ≤ limit.getD 20 ∧
     s.getArticles (some c) none offset = s.getArticles (some c) (some 20) offset) ∧
    (db.getArticles (some c) limit offset =
      ((jsSort byPublishedDesc (db.articles.filter (fun a => a.category == c))).drop
        (offset.getD 0)).take (limit.getD 20) ∧
     (∀ a ∈ db.getArticles (some c) limit offset, a.category = c) ∧
     (db.getArticles (some c) limit offset).Pairwise
        (fun a b => b.publishedAt ≤ a.publishedAt) ∧
     (db.getArticles (some c) limit offset).length ≤ limit.getD 20 ∧
     db.getArticles (some c) none offset = db.getArticles (some c) (some 20) offset) := by
  have hc1 : (c == "") = false := beq_eq_false_iff_ne.mpr hne
  have hc2 : (c == "all") = false := beq_eq_false_iff_ne.mpr hna
  have hcond : (jsTruthyStr c && c != "all") = true := by
    simp [jsTruthyStr, bne, hc1, hc2]
  have hmem : ∀ (l : List Article) (a : Article),
      a ∈ ((jsSort byPublishedDesc (l.filter (fun x => x.category == c))).drop
        (offset.getD 0)).take (limit.getD 20) → a.category = c := by
    intro l a ha
    have h1 : a ∈ jsSort byPublishedDesc (l.filter (fun x => x.category == c)) :=
      mem_of_mem_take_drop ha
    have h2 : a ∈ l.filter (fun x => x.category == c) := (mem_jsSort _ _ _).mp h1
    exact beq_iff_eq.mp (List.mem_filter.mp h2).2
  have hpair : ∀ l : List Article,
      (((jsSort byPublishedDesc (l.filter (fun x => x.category == c))).drop
        (offset.getD 0)).take (limit.getD 20)).Pairwise
        (fun a b => b.publishedAt ≤ a.publishedAt) := by
    intro l
    have hp := pairwise_jsSort byPublishedDesc byPublishedDesc_trans byPublishedDesc_total
      (l.filter (fun x => x.category == c))
    have hw := List.Pairwise.sublist
      ((List.take_sublist (limit.getD 20)
          ((jsSort byPublishedDesc (l.filter (fun x => x.category == c))).drop
            (offset.getD 0))).trans
        (List.drop_sublist (offset.getD 0)
          (jsSort byPublishedDesc (l.filter (fun x => x.category == c))))) hp
    exact hw.imp (fun h => by simpa [byPublishedDesc] using h)
  have hlen : ∀ l : List Article,
      (((jsSort byPublishedDesc (l.filter (fun x => x.category == c))).drop
        (offset.getD 0)).take (limit.getD 20)).length ≤ limit.getD 20 := by
    intro l
    rw [List.length_take]
    exact min_le_left _ _
  have hmemEq : s.getArticles (some c) limit offset =
      ((jsSort byPublishedDesc (s.articles.values.filter (fun a => a.category == c))).drop
        (offset.getD 0)).take (limit.getD 20) := by
    simp [MemStorage.getArticles, hcond]
  have hdbEq : db.getArticles (some c) limit offset =
      ((jsSort byPublishedDesc (db.articles.filter (fun a => a.category == c))).drop
        (offset.getD 0)).take (limit.getD 20) := by
    simp [DatabaseStorage.getArticles, hcond]
  refine ⟨⟨hmemEq, ?_, ?_, ?_, rfl⟩, ⟨hdbEq, ?_, ?_, ?_, rfl⟩⟩
  · intro a ha
    exact hmem _ a (hmemEq ▸ ha)
  · exact hmemEq ▸ hpair _
  · exact hmemEq ▸ hlen _
  · intro a ha
    exact hmem _ a (hdbEq ▸ ha)
  · exact hdbEq ▸ hpair _
  · exact hdbEq ▸ hlen _

/-- C7 (amended) witness: instantiated at the filter `"sports"` on the
empty stores. -/
theorem getArticles_category_filtered_sorted_paginated_witness :
    (("sports" : String) ≠ "" ∧ ("sports" : String) ≠ "all") ∧
    ((emptyMem.getArticles (some "sports") none none =
      ((jsSort byPublishedDesc (emptyMem.articles.values.filter
        (fun a => a.category == "sports"))).drop ((none : Option Nat).getD 0)).take
        ((none : Option Nat).getD 20) ∧
     (∀ a ∈ emptyMem.getArticles (some "sports") none none, a.category = "sports") ∧
     (emptyMem.getArticles (some "sports") none none).Pairwise
        (fun a b => b.publishedAt ≤ a.publishedAt) ∧
     (emptyMem.getArticles (some "sports") none none).length ≤ (none : Option Nat).getD 20 ∧
     emptyMem.getArticles (some "sports") none none =
       emptyMem.getArticles (some "sports") (some 20) none) ∧
    ((DatabaseStorage.mk [] []).getArticles (some "sports") none none =
      ((jsSort byPublishedDesc ((DatabaseStorage.mk [] []).articles.filter
        (fun a => a.category == "sports"))).drop ((none : Option Nat).getD 0)).take
        ((none : Option Nat).getD 20) ∧
     (∀ a ∈ (DatabaseStorage.mk [] []).getArticles (some "sports") none none,
        a.category = "sports") ∧
     ((DatabaseStorage.mk [] []).getArticles (some "sports") none none).Pairwise
        (fun a b => b.publishedAt ≤ a.publishedAt) ∧
     ((DatabaseStorage.mk [] []).getArticles (some "sports") none none).length ≤
        (none : Option Nat).getD 20 ∧
     (DatabaseStorage.mk [] []).getArticles (some "sports") none none =
       (DatabaseStorage.mk [] []).getArticles (some "sports") (some 20) none)) := by
  refine ⟨⟨by decide, by decide⟩, ?_⟩
  exact getArticles_category_filtered_sorted_paginated emptyMem (DatabaseStorage.mk [] [])
    "sports" none none (by decide) (by decide)

/-- C9: the category string `"all"` behaves exactly like the absent
category filter, in both storage implementations, for every state, limit
and offset. -/
theorem getArticles_all_is_no_filter (s : MemStorage) (db : DatabaseStorage)
    (limit offset : Option Nat) :
    s.getArticles (some "all") limit offset = s.getArticles none limit offset ∧
    db.getArticles (some "all") limit offset = db.getArticles none limit offset := by
  have h : (jsTruthyStr "all" && "all" != "all") = false := by decide
  constructor
  · simp [MemStorage.getArticles, h]
  · simp [DatabaseStorage.getArticles, h]

/-- C2 (divergence evaluation): with two stored study resources, `Alpha`
created at time 1 and `Beta` created at time 2, and no filters supplied,
the in-memory implementation returns them title-ascending
(`[Alpha, Beta]`, oldest first here) while the relational implementation
returns them newest-first (`[Beta, Alpha]`), so the two orders differ
and the in-memory order is not newest-first by creation timestamp. -/
theorem getTnpscResources_order_divergence :
    ({ emptyMem with tnpscResources :=
        ⟨[("r1", ⟨"r1", "Alpha", "book", "History", "prelims", none, none, 1⟩),
          ("r2", ⟨"r2", "Beta", "book", "History", "prelims", none, none, 2⟩)]⟩ } :
      MemStorage).getTnpscResources none none none =
      [⟨"r1", "Alpha", "book", "History", "prelims", none, none, 1⟩,
       ⟨"r2", "Beta", "book", "History", "prelims", none, none, 2⟩] ∧
    (DatabaseStorage.mk []
        [⟨"r1", "Alpha", "book", "History", "prelims", none, none, 1⟩,
         ⟨"r2", "Beta", "book", "History", "prelims", none, none, 2⟩]).getTnpscResources
        none none none =
      [⟨"r2", "Beta", "book", "History", "prelims", none, none, 2⟩,
       ⟨"r1", "Alpha", "book", "History", "prelims", none, none, 1⟩] ∧
    (1 : Int) < 2 ∧
    ({ emptyMem with tnpscResources :=
        ⟨[("r1", ⟨"r1", "Alpha", "book", "History", "prelims", none, none, 1⟩),
          ("r2", ⟨"r2", "Beta", "book", "History", "prelims", none, none, 2⟩)]⟩ } :
      MemStorage).getTnpscResources none none none ≠
      (DatabaseStorage.mk []
        [⟨"r1", "Alpha", "book", "History", "prelims", none, none, 1⟩,
         ⟨"r2", "Beta", "book", "History", "prelims", none, none, 2⟩]).getTnpscResources
        none none none := by
  refine ⟨by decide, by decide, by decide, by decide⟩

/-- C10: a source whose lowercase form contains one of the six
hard-coded trusted names short-circuits `detectFakeNews` to exactly
`{isReal := true, confidence := 0.95, sourceCredibility := high}` for
*every* oracle value — i.e. without consulting the AI model — and for
every input whatsoever, a returned credibility is never `low` despite
the declared three-valued type. -/
theorem detectFakeNews_trusted_shortcircuit_never_low :
    (∀ (aiResponse : Option AIRawResult) (text src : String),
      trustedSources.any (fun trusted => jsIncludes (jsToLower src) trusted) = true →
      detectFakeNews aiResponse text (some src) =
        .ok ⟨true, 0.95, "This news comes from a trusted and verified source.",
          Credibility.high⟩) ∧
    (∀ (aiResponse : Option AIRawResult) (text : String) (source : Option String)
        (r : FakeNewsResult),
      detectFakeNews aiResponse text source = .ok r → r.sourceCredibility ≠ .low) := by
  constructor
  · intro aiResponse text src hany
    have hne : (src == "") = false := by
      rcases List.any_eq_true.mp hany with ⟨t, ht, hinc⟩
      have hpat : t.data ≠ [] := by
        simp only [trustedSources, List.mem_cons, List.not_mem_nil, or_false] at ht
        rcases ht with rfl | rfl | rfl | rfl | rfl | rfl <;> decide
      have hlow : (jsToLower src).data ≠ [] := by
        intro h0
        unfold jsIncludes at hinc
        rw [h0] at hinc
        simp only [hasSubSeq, List.isEmpty_iff] at hinc
        exact hpat hinc
      have hdata : src.data ≠ [] := by
        intro h0
        exact hlow (by simp [jsToLower, h0])
      cases hb : (src == "") with
      | false => rfl
      | true =>
          have : src = "" := beq_iff_eq.mp hb
          subst this
          exact absurd rfl hdata
    have hcond : (jsTruthyStr src
        && trustedSources.any (fun trusted => jsIncludes (jsToLower src) trusted)) = true := by
      simp [jsTruthyStr, hne, hany]
    simp only [detectFakeNews, hcond, if_true]
  · intro aiResponse text source r h
    cases source with
    | none =>
        cases aiResponse with
        | none => simp [detectFakeNews] at h
        | some rr =>
            simp only [detectFakeNews, reduceCtorEq, reduceIte, Except.ok.injEq] at h
            rw [← h]
            simp
    | some src =>
        by_cases hc : (jsTruthyStr src
            && trustedSources.any (fun trusted => jsIncludes (jsToLower src) trusted)) = true
        · simp only [detectFakeNews, hc, if_true, Except.ok.injEq] at h
          rw [← h]
          simp
        · have hc' : (jsTruthyStr src
              && trustedSources.any (fun trusted => jsIncludes (jsToLower src) trusted)) =
              false := by simpa using hc
          cases aiResponse with
          | none => simp [detectFakeNews, hc'] at h
          | some rr =>
              simp only [detectFakeNews, hc', Bool.false_eq_true, if_false,
                reduceCtorEq, reduceIte, Except.ok.injEq] at h
              rw [← h]
              simp

/-- C10 witness: the source `"The Hindu reports"` matches the trusted
list and forces the fixed high-credibility verdict even when the AI call
would have failed. -/
theorem detectFakeNews_trusted_shortcircuit_never_low_witness :
    trustedSources.any
      (fun trusted => jsIncludes (jsToLower "The Hindu reports") trusted) = true ∧
    detectFakeNews none "some text" (some "The Hindu reports") =
      .ok ⟨true, 0.95, "This news comes from a trusted and verified source.",
        Credibility.high⟩ := by
  refine ⟨by decide, ?_⟩
  exact detectFakeNews_trusted_shortcircuit_never_low.1 none "some text" "The Hindu reports"
    (by decide)

end News

